import Mathlib

/-!
Shallow embedding of the RestCallPackage HTTP client (package `network`,
files `config.go` and `network.go`) and verification of its specification.

Conventions of the embedding:
* Go strings are Lean `String`s; `strings.Contains s sub` becomes
  `strContains s sub` (infix-of on the character lists).
* A Go `error` is `Option String` carrying the error message (`none` = nil),
  since the retry classification only ever inspects error messages.
* Go maps (`map[string]string`, `url.Values`) are association lists with
  unique keys; Go map mutation is explicit state passing (the updated list
  is what the caller's map aliases, Go maps being reference values).
* Time and the network are abstracted into per-call oracles: a `CallEnv`
  records, for each attempt index, whether the shared deadline context was
  observed done at the pre-attempt wait and after the attempt, and what the
  single-attempt execution environment (`AttemptEnv`) produced.
* `RetryConfig.MaxRetries` is a `Nat`: `Config.Validate` (config.go) rejects
  negative values and `Init` refuses unvalidated configurations, so the
  pipeline only ever runs with `MaxRetries ≥ 0`.
-/

namespace RestCall

/-- `needle` is a prefix of the second list. -/
def listPrefixOf : List Char → List Char → Bool
  | [], _ => true
  | _ :: _, [] => false
  | a :: as, b :: bs => a == b && listPrefixOf as bs

/-- `needle` occurs contiguously inside the second list. -/
def listInfixOf (needle : List Char) : List Char → Bool
  | [] => listPrefixOf needle []
  | b :: bs => listPrefixOf needle (b :: bs) || listInfixOf needle bs

/-- `strings.Contains s sub`: `sub` occurs as a contiguous substring of `s`.
Character-level infix on the underlying lists (all substrings the code
searches for are ASCII, where Go's byte-level search coincides). -/
def strContains (s sub : String) : Bool :=
  listInfixOf sub.data s.data

/-- HTTP method constants used by `network.go` (declared elsewhere in the
package; the standard HTTP method names). -/
def methodGET : String := "GET"

def methodPOST : String := "POST"

def methodPUT : String := "PUT"

def methodPATCH : String := "PATCH"

def methodDELETE : String := "DELETE"

def methodHEAD : String := "HEAD"

def methodOPTIONS : String := "OPTIONS"

/-- network.go lines 93/126: methods that carry no request body and use
query parameters instead. -/
def isQueryParamMethod (method : String) : Bool :=
  method == methodGET || method == methodDELETE ||
  method == methodHEAD || method == methodOPTIONS

/-- config.go `RetryConfig` (the fields the execution pipeline reads;
`RetryDelay` only determines how long the inter-attempt wait lasts, which
the oracle model abstracts). -/
structure RetryConfig where
  MaxRetries : Nat
  RetryOnStatus : List Int

/-- network.go line 71: the sensitive header-name fragments. -/
def sensitiveHeaders : List String :=
  ["authorization", "auth", "token", "api-key", "x-api-key", "bearer"]

/-- `strings.ToLower`, character-wise (coincides with Go on the ASCII
header names the sensitive-fragment search cares about). -/
def goToLower (s : String) : String :=
  String.mk (s.data.map Char.toLower)

/-- network.go lines 70-83 (`sanitizeHeaderValue`, colorized variant):
truncates sensitive header values for logging.  The Go loop returns the
same value for every matching fragment, so it equals `List.any`. -/
def sanitizeHeaderValue (key value : String) : String :=
  let lowerKey := goToLower key
  if sensitiveHeaders.any (fun sensitive => strContains lowerKey sensitive) then
    if value.length > 10 then value.take 10 ++ "..." else "***"
  else value

/-- network.go lines 272-290 (`shouldRetry`): retry when the error message
mentions a configured retryable status code or looks like a transient
network failure. -/
def shouldRetry (retryOnStatus : List Int) (err : Option String) : Bool :=
  match err with
  | none => false
  | some errStr =>
    retryOnStatus.any (fun statusCode =>
      strContains errStr ("response code: " ++ toString statusCode)) ||
    (strContains errStr "connection" || strContains errStr "timeout" ||
     strContains errStr "EOF")

/-- Outcome of `httpClient.Do` plus the body read, for one attempt:
either a transport-level failure, or a response with a status code and
the result of reading its body. -/
inductive TransportResult where
  | failure (errMsg : String)
  | response (statusCode : Int) (bodyRead : Except String String)

/-- Environment of one `executeRequestOnce` call: whether
`http.NewRequestWithContext` failed, and what the transport produced. -/
structure AttemptEnv where
  newRequestError : Option String
  transport : TransportResult

/-- network.go lines 193-234 (`executeRequestOnce`): build the request,
perform the round trip, read the body, and classify by status code.
Logging calls are side effects that do not influence the returned pair. -/
def executeRequestOnce (env : AttemptEnv) : String × Option String :=
  match env.newRequestError with
  | some e => ("", some e)
  | none =>
    match env.transport with
    | TransportResult.failure errMsg => ("", some errMsg)
    | TransportResult.response statusCode bodyRead =>
      match bodyRead with
      | Except.error e => ("", some e)
      | Except.ok responseBody =>
        if statusCode < 200 ∨ statusCode ≥ 300 then
          (responseBody, some ("received non-2xx response code: " ++ toString statusCode))
        else
          (responseBody, none)

/-- Oracle for one whole call: for each attempt index, whether the shared
deadline context was done when the pre-attempt wait ran (`select` at
network.go lines 159-163), the error the context reports once done, the
environment the attempt executed in, and whether the context was observed
done at the post-attempt check (network.go line 179). -/
structure CallEnv where
  deadlineBeforeWait : Nat → Bool
  ctxErr : String
  attemptEnv : Nat → AttemptEnv
  deadlineAfterAttempt : Nat → Bool

/-- The result of `executeRequestWithRetry`, instrumented with the number
of `executeRequestOnce` invocations the loop performed. -/
structure RetryOutcome where
  body : String
  error : Option String
  attempts : Nat
  deriving DecidableEq

/-- network.go lines 150-190 (`executeRequestWithRetry`), as a recursion on
the remaining loop iterations.  `attempt` is the Go loop counter, `last`
carries the persistent `responseBody`/`lastErr` variables, and the body
rematerialization (lines 166-171) is absorbed into the per-attempt
environment oracle. -/
def retryLoopAux (cfg : RetryConfig) (env : CallEnv) :
    Nat → Nat → String × Option String → RetryOutcome
  | attempt, 0, last => ⟨last.1, last.2, attempt⟩
  | attempt, remaining + 1, last =>
    if 0 < attempt ∧ env.deadlineBeforeWait attempt = true then
      ⟨"", some env.ctxErr, attempt⟩
    else
      let result := executeRequestOnce (env.attemptEnv attempt)
      if result.2 = none ∨ env.deadlineAfterAttempt attempt = true then
        ⟨result.1, result.2, attempt + 1⟩
      else if shouldRetry cfg.RetryOnStatus result.2 = true then
        retryLoopAux cfg env (attempt + 1) remaining result
      else
        ⟨result.1, result.2, attempt + 1⟩

/-- network.go lines 150-190: the full retry loop, `maxAttempts =
MaxRetries + 1`, starting at attempt 0 with the zero-valued
`responseBody`/`lastErr`. -/
def executeRequestWithRetry (cfg : RetryConfig) (env : CallEnv) : RetryOutcome :=
  retryLoopAux cfg env 0 (cfg.MaxRetries + 1) ("", none)

/-! ## Payload codec -/

/-- A Go `interface\x7b\x7d` value as it occurs in payload maps. -/
inductive GoValue where
  | str (s : String)
  | int (i : Int)
  | bool (b : Bool)
  deriving DecidableEq

/-- `fmt.Sprint` on the payload value kinds above. -/
def goSprint : GoValue → String
  | GoValue.str s => s
  | GoValue.int i => toString i
  | GoValue.bool b => if b then "true" else "false"

/-- First binding of `key` in an association list (Go map lookup). -/
def lookupKey (key : String) : List (String × String) → Option String
  | [] => none
  | kv :: rest => if kv.1 = key then some kv.2 else lookupKey key rest

/-- Drop every binding of `key` from an association list. -/
def removeKey (key : String) : List (String × String) → List (String × String)
  | [] => []
  | kv :: rest => if kv.1 = key then removeKey key rest else kv :: removeKey key rest

/-- `url.Values.Set key val`: replace any binding of `key` with the single
value `val` (association-list model of the Go map). -/
def querySet (q : List (String × String)) (key val : String) : List (String × String) :=
  removeKey key q ++ [(key, val)]

/-- Lookup of a query parameter (Go `url.Values.Get`). -/
def queryGet (q : List (String × String)) (key : String) : Option String :=
  lookupKey key q

/-- network.go lines 96-100: `q.Set(key, fmt.Sprint(value))` for every
payload entry, in the map iteration order given by `order`. -/
def buildQuery (base : List (String × String)) (order : List (String × GoValue)) :
    List (String × String) :=
  order.foldl (fun q kv => querySet q kv.1 (goSprint kv.2)) base

/-- Hexadecimal digit (lower case), for JSON control-character escapes. -/
def hexDigit (n : Nat) : Char :=
  if n < 10 then Char.ofNat (48 + n) else Char.ofNat (87 + n)

/-- JSON escaping of one character of a string scalar. -/
def jsonEscapeChar (c : Char) : String :=
  if c = '"' then "\\\""
  else if c = '\\' then "\\\\"
  else if c = '\n' then "\\n"
  else if c = '\r' then "\\r"
  else if c = '\t' then "\\t"
  else if c.toNat < 32 then
    "\\u00" ++ String.mk [hexDigit (c.toNat / 16), hexDigit (c.toNat % 16)]
  else String.singleton c

/-- JSON escaping of a character list. -/
def jsonEscapeList : List Char → List Char
  | [] => []
  | c :: cs => (jsonEscapeChar c).data ++ jsonEscapeList cs

/-- Modelled from the spec: "the string value is JSON-stringified as a
scalar" — the JSON string encoding of a raw string payload (the comparison
point for the string-variant wire body; the source itself never calls a
JSON string encoder on this path). -/
def jsonEncodeString (s : String) : String :=
  "\"" ++ String.mk (jsonEscapeList s.data) ++ "\""

/-- `json.Marshal` of a structured payload value. -/
def jsonEncodeValue : GoValue → String
  | GoValue.str s => jsonEncodeString s
  | GoValue.int i => toString i
  | GoValue.bool b => if b then "true" else "false"

/-- Insert an entry into a key-sorted list of entries (Go `json.Marshal`
emits map keys in sorted order). -/
def insertByKey (kv : String × GoValue) :
    List (String × GoValue) → List (String × GoValue)
  | [] => [kv]
  | hd :: tl => if kv.1 ≤ hd.1 then kv :: hd :: tl else hd :: insertByKey kv tl

/-- Sort entries by key, as Go `json.Marshal` does for maps. -/
def sortByKey (entries : List (String × GoValue)) : List (String × GoValue) :=
  entries.foldr insertByKey []

/-- `json.Marshal` of a `map[string]interface\x7b\x7d` payload: a JSON
object with keys in sorted order. -/
def jsonMarshalObj (entries : List (String × GoValue)) : String :=
  let inner := (sortByKey entries).map
    (fun kv => jsonEncodeString kv.1 ++ ":" ++ jsonEncodeValue kv.2)
  "\x7b" ++ String.intercalate "," inner ++ "\x7d"

/-- network.go lines 95-101 (`makeRequest`, query half): for a body-less
method with a non-nil payload, fold `q.Set` over the payload entries in map
iteration order (`order`); otherwise the base query is untouched.
`payload = none` is the Go nil map. -/
def makeRequestQuery (method : String) (baseQuery : List (String × String))
    (payload : Option (List (String × GoValue))) : List (String × String) :=
  if isQueryParamMethod method = true ∧ payload.isSome = true then
    buildQuery baseQuery (payload.getD [])
  else baseQuery

/-- network.go lines 103-113 (`makeRequest`, body half): for a body-bearing
method with a non-nil payload, the JSON marshalling of the payload becomes
both the body and the logged payload string; otherwise no body, empty
payload string. -/
def makeRequestBody (method : String) (payload : Option (List (String × GoValue))) :
    Option String × String :=
  if isQueryParamMethod method = false ∧ payload.isSome = true then
    let jsonPayload := jsonMarshalObj (payload.getD [])
    (some jsonPayload, jsonPayload)
  else (none, "")

/-- network.go lines 128-134 (`makeRequestWithString`): for a body-bearing
method and a non-empty raw string payload, the body is the payload wrapped
in literal double quotes; otherwise no body and an empty payload string
(`url.Parse` errors abort before this point). -/
def makeRequestWithStringBody (method payload : String) : Option String × String :=
  if isQueryParamMethod method = false ∧ payload ≠ "" then
    let quotedPayload := "\"" ++ payload ++ "\""
    (some quotedPayload, quotedPayload)
  else (none, "")

/-! ## Raw-XML path -/

/-- Lookup in a headers map (association-list model). -/
def headerGet (headers : List (String × String)) (key : String) : Option String :=
  lookupKey key headers

/-- network.go lines 354-359: replace a nil headers map by a fresh one, and
inject the XML content type only when the caller set no "Content-Type" key.
Go maps are reference values, so the returned list is the state of the
caller's own map after the call. -/
def makeXMLPostHeaders (headers : Option (List (String × String))) :
    List (String × String) :=
  let hs := headers.getD []
  if (headerGet hs "Content-Type").isSome then hs
  else hs ++ [("Content-Type", "text/xml; charset=UTF-8")]

/-- Observable effects of `MakeXMLPostRequest` (network.go lines 350-373):
the pipeline outcome, the wire body handed to `executeRequest`, the logged
payload string, and the final state of the headers map. -/
structure XMLCall where
  result : RetryOutcome
  body : Option String
  payloadStr : String
  headers : List (String × String)
  deriving DecidableEq

/-- network.go lines 350-373 (`MakeXMLPostRequest`): raw body, conditional
Content-Type injection, then the common execution pipeline
(`executeRequest` = deadline context + `executeRequestWithRetry`, whose
network behaviour the call environment oracle abstracts). -/
def makeXMLPostRequest (cfg : RetryConfig) (env : CallEnv)
    (xmlPayload : String) (headers : Option (List (String × String))) : XMLCall :=
  let hs := makeXMLPostHeaders headers
  ⟨executeRequestWithRetry cfg env, some xmlPayload, xmlPayload, hs⟩

/-! ## Helper lemmas -/

theorem lookupKey_append_self (hs : List (String × String)) (key val : String)
    (h : lookupKey key hs = none) :
    lookupKey key (hs ++ [(key, val)]) = some val := by
  induction hs with
  | nil => simp [lookupKey]
  | cons hd tl ih =>
    by_cases hk : hd.1 = key
    · simp [lookupKey, hk] at h
    · simp only [lookupKey, hk, if_false, List.cons_append, if_neg] at h ⊢
      exact ih h

theorem lookupKey_append_other (hs : List (String × String)) (key val k : String)
    (h : k ≠ key) :
    lookupKey k (hs ++ [(key, val)]) = lookupKey k hs := by
  induction hs with
  | nil =>
    have hne : ¬ key = k := fun e => h e.symm
    simp [lookupKey, hne]
  | cons hd tl ih =>
    by_cases hk : hd.1 = k
    · simp [lookupKey, hk]
    · simp only [lookupKey, hk, if_false, List.cons_append, if_neg]
      exact ih

theorem lookupKey_removeKey_ne (q : List (String × String)) (key k : String)
    (h : k ≠ key) :
    lookupKey k (removeKey key q) = lookupKey k q := by
  induction q with
  | nil => rfl
  | cons hd tl ih =>
    have hkey : ¬ key = k := fun e => h e.symm
    by_cases hk : hd.1 = key
    · have hdk : ¬ hd.1 = k := by rw [hk]; exact hkey
      simp [removeKey, hk, lookupKey, hdk, ih, hkey]
    · by_cases hdk : hd.1 = k
      · simp [removeKey, hk, lookupKey, hdk, h]
      · simp [removeKey, hk, lookupKey, hdk, ih, h]

theorem lookupKey_removeKey_self (q : List (String × String)) (key : String) :
    lookupKey key (removeKey key q) = none := by
  induction q with
  | nil => rfl
  | cons hd tl ih =>
    by_cases hk : hd.1 = key
    · simp [removeKey, hk, ih]
    · simp [removeKey, hk, lookupKey, ih]

theorem queryGet_set_self (q : List (String × String)) (key val : String) :
    queryGet (querySet q key val) key = some val := by
  unfold queryGet querySet
  exact lookupKey_append_self _ _ _ (lookupKey_removeKey_self q key)

theorem queryGet_set_other (q : List (String × String)) (key val k : String)
    (h : k ≠ key) :
    queryGet (querySet q key val) k = queryGet q k := by
  unfold queryGet querySet
  rw [lookupKey_append_other _ _ _ _ h, lookupKey_removeKey_ne _ _ _ h]

theorem buildQuery_not_mem (order : List (String × GoValue)) (k : String) :
    ∀ base : List (String × String), k ∉ order.map Prod.fst →
      queryGet (buildQuery base order) k = queryGet base k := by
  induction order with
  | nil => intro base _; rfl
  | cons hd tl ih =>
    intro base hmem
    simp only [List.map_cons, List.mem_cons, not_or] at hmem
    have step : buildQuery base (hd :: tl) =
        buildQuery (querySet base hd.1 (goSprint hd.2)) tl := rfl
    rw [step, ih _ hmem.2, queryGet_set_other _ _ _ _ hmem.1]

theorem buildQuery_mem (order : List (String × GoValue)) (k : String) (v : GoValue) :
    ∀ base : List (String × String), (order.map Prod.fst).Nodup →
      (k, v) ∈ order →
      queryGet (buildQuery base order) k = some (goSprint v) := by
  induction order with
  | nil => intro _ _ h; cases h
  | cons hd tl ih =>
    intro base hnd hmem
    simp only [List.map_cons, List.nodup_cons] at hnd
    have step : buildQuery base (hd :: tl) =
        buildQuery (querySet base hd.1 (goSprint hd.2)) tl := rfl
    rcases List.mem_cons.mp hmem with he | he
    · have hk : hd.1 = k := by rw [← he]
      have hv : hd.2 = v := by rw [← he]
      rw [step, buildQuery_not_mem tl k _ (by rw [← hk]; exact hnd.1), hk, hv]
      exact queryGet_set_self base k (goSprint v)
    · exact step ▸ ih _ hnd.2 he

theorem jsonEscapeList_of_plain (l : List Char)
    (h : ∀ c ∈ l, c ≠ '"' ∧ c ≠ '\\' ∧ 32 ≤ c.toNat) :
    jsonEscapeList l = l := by
  induction l with
  | nil => rfl
  | cons c cs ih =>
    obtain ⟨h1, h2, h3⟩ := h c (List.mem_cons_self c cs)
    have hn : c ≠ '\n' := fun e => by rw [e] at h3; exact absurd h3 (by decide)
    have hr : c ≠ '\r' := fun e => by rw [e] at h3; exact absurd h3 (by decide)
    have ht : c ≠ '\t' := fun e => by rw [e] at h3; exact absurd h3 (by decide)
    have hc : ¬ c.toNat < 32 := by omega
    have hesc : jsonEscapeChar c = String.singleton c := by
      simp [jsonEscapeChar, h1, h2, hn, hr, ht, hc]
    rw [jsonEscapeList, hesc]
    have : (String.singleton c).data = [c] := rfl
    rw [this, ih (fun x hx => h x (List.mem_cons_of_mem c hx))]
    rfl

theorem retryLoopAux_zero (cfg : RetryConfig) (env : CallEnv) (attempt : Nat)
    (last : String × Option String) :
    retryLoopAux cfg env attempt 0 last = ⟨last.1, last.2, attempt⟩ := rfl

theorem retryLoopAux_succ (cfg : RetryConfig) (env : CallEnv) (attempt remaining : Nat)
    (last : String × Option String) :
    retryLoopAux cfg env attempt (remaining + 1) last =
      if 0 < attempt ∧ env.deadlineBeforeWait attempt = true then
        ⟨"", some env.ctxErr, attempt⟩
      else if (executeRequestOnce (env.attemptEnv attempt)).2 = none ∨
              env.deadlineAfterAttempt attempt = true then
        ⟨(executeRequestOnce (env.attemptEnv attempt)).1,
         (executeRequestOnce (env.attemptEnv attempt)).2, attempt + 1⟩
      else if shouldRetry cfg.RetryOnStatus (executeRequestOnce (env.attemptEnv attempt)).2 = true then
        retryLoopAux cfg env (attempt + 1) remaining (executeRequestOnce (env.attemptEnv attempt))
      else
        ⟨(executeRequestOnce (env.attemptEnv attempt)).1,
         (executeRequestOnce (env.attemptEnv attempt)).2, attempt + 1⟩ := rfl

/-- A call environment with constant deadline flags and a constant
per-attempt execution environment, for concrete instantiations. -/
def constEnv (beforeWait afterAttempt : Bool) (a : AttemptEnv) : CallEnv :=
  ⟨fun _ => beforeWait, "context deadline exceeded", fun _ => a, fun _ => afterAttempt⟩

/-! ## Claim theorems -/

/-- C2: the Retry Decision returns true iff the error is non-nil and its
message either contains "response code: <N>" for some N in the configured
retryable-status set, or contains one of the literal substrings
"connection", "timeout", "EOF"; a nil error is never retried. -/
theorem shouldRetry_characterization (retryOnStatus : List Int) :
    shouldRetry retryOnStatus none = false ∧
    ∀ err : Option String,
      (shouldRetry retryOnStatus err = true ↔
        ∃ msg, err = some msg ∧
          ((∃ code ∈ retryOnStatus,
              strContains msg ("response code: " ++ toString code) = true) ∨
           strContains msg "connection" = true ∨
           strContains msg "timeout" = true ∨
           strContains msg "EOF" = true)) := by
  refine ⟨rfl, fun err => ?_⟩
  cases err with
  | none => simp [shouldRetry]
  | some msg =>
    simp [shouldRetry, List.any_eq_true]
    rw [or_assoc]

/-- C4: for an attempt whose round trip and body read succeed, a 2xx
status yields the body with nil error, and any other status yields the
body together with the error message
"received non-2xx response code: <code>". -/
theorem executeRequestOnce_status_classification (env : AttemptEnv)
    (statusCode : Int) (responseBody : String)
    (hreq : env.newRequestError = none)
    (htr : env.transport = TransportResult.response statusCode (Except.ok responseBody)) :
    (200 ≤ statusCode ∧ statusCode < 300 →
      executeRequestOnce env = (responseBody, none)) ∧
    (statusCode < 200 ∨ 300 ≤ statusCode →
      executeRequestOnce env =
        (responseBody, some ("received non-2xx response code: " ++ toString statusCode))) := by
  have hrun : executeRequestOnce env =
      if statusCode < 200 ∨ statusCode ≥ 300 then
        (responseBody, some ("received non-2xx response code: " ++ toString statusCode))
      else (responseBody, none) := by
    simp [executeRequestOnce, hreq, htr]
  constructor
  · rintro ⟨h1, h2⟩
    rw [hrun, if_neg (by omega)]
  · intro h
    rw [hrun, if_pos (by omega)]

/-- C4 witness: a 404 with body "not found" comes back as the body plus the
fixed error phrase; a 204 with empty body is a success. -/
theorem executeRequestOnce_status_classification_witness :
    executeRequestOnce ⟨none, TransportResult.response 404 (Except.ok "not found")⟩ =
      ("not found", some ("received non-2xx response code: " ++ toString (404 : Int))) ∧
    executeRequestOnce ⟨none, TransportResult.response 204 (Except.ok "")⟩ = ("", none) :=
  ⟨(executeRequestOnce_status_classification ⟨none, TransportResult.response 404 (Except.ok "not found")⟩
      404 "not found" rfl rfl).2 (by omega),
   (executeRequestOnce_status_classification ⟨none, TransportResult.response 204 (Except.ok "")⟩
      204 "" rfl rfl).1 (by omega)⟩

/-- C8: a header whose lowercased name contains a sensitive fragment is
masked — first 10 characters plus "..." when the value is longer than 10
characters, the fixed placeholder "***" otherwise — and every other header
value is logged verbatim. -/
theorem sanitizeHeaderValue_spec (key value : String) :
    (sensitiveHeaders.any (fun sensitive => strContains (goToLower key) sensitive) = true →
      sanitizeHeaderValue key value =
        if value.length > 10 then value.take 10 ++ "..." else "***") ∧
    (sensitiveHeaders.any (fun sensitive => strContains (goToLower key) sensitive) = false →
      sanitizeHeaderValue key value = value) := by
  unfold sanitizeHeaderValue
  constructor <;> intro h <;> simp [h]

/-- C8 witness: Authorization with a 22-character bearer value masks to its
first 10 characters plus "...", and a non-sensitive header is untouched. -/
theorem sanitizeHeaderValue_spec_witness :
    sanitizeHeaderValue "Authorization" "Bearer abcdef1234567890" =
      (if ("Bearer abcdef1234567890" : String).length > 10
       then ("Bearer abcdef1234567890" : String).take 10 ++ "..."
       else "***") ∧
    sanitizeHeaderValue "X-Request-Id" "plainvalue" = "plainvalue" :=
  ⟨(sanitizeHeaderValue_spec "Authorization" "Bearer abcdef1234567890").1 (by decide),
   (sanitizeHeaderValue_spec "X-Request-Id" "plainvalue").2 (by decide)⟩

/-- C10: the raw-string variant with an empty payload on a body-bearing
method sends no body at all and logs an empty payload string. -/
theorem makeRequestWithString_empty_payload_no_body (method : String)
    (h : method = methodPOST ∨ method = methodPUT ∨ method = methodPATCH) :
    makeRequestWithStringBody method "" = (none, "") := by
  rcases h with h | h | h <;> subst h <;> rfl

/-- C10 witness: an empty string POST payload produces no body. -/
theorem makeRequestWithString_empty_payload_no_body_witness :
    makeRequestWithStringBody "POST" "" = (none, "") :=
  makeRequestWithString_empty_payload_no_body "POST" (Or.inl rfl)

/-- C5 counterexample: for the payload a"b (which contains a double
quote), the wire body is the payload naively wrapped in quotes, which is
not the JSON string encoding of the payload. -/
theorem string_payload_json_encoding_counterexample :
    (makeRequestWithStringBody "POST" "a\"b").1 = some "\"a\"b\"" ∧
    jsonEncodeString "a\"b" = "\"a\\\"b\"" ∧
    (makeRequestWithStringBody "POST" "a\"b").1 ≠ some (jsonEncodeString "a\"b") := by
  refine ⟨by decide, by decide, by decide⟩

/-- C5 amended: for every non-empty raw string payload on a body-bearing
method, the wire body is the payload wrapped in literal double quotes with
no escaping; this coincides with the JSON string encoding of the payload
exactly when the payload contains no double quote, backslash, or control
character. -/
theorem makeRequestWithString_quoting (method payload : String)
    (hm : isQueryParamMethod method = false) (hp : payload ≠ "") :
    (makeRequestWithStringBody method payload).1 = some ("\"" ++ payload ++ "\"") ∧
    (makeRequestWithStringBody method payload).2 = "\"" ++ payload ++ "\"" ∧
    ((∀ c ∈ payload.data, c ≠ '"' ∧ c ≠ '\\' ∧ 32 ≤ c.toNat) →
      "\"" ++ payload ++ "\"" = jsonEncodeString payload) := by
  refine ⟨?_, ?_, ?_⟩
  · simp [makeRequestWithStringBody, hm, hp]
  · simp [makeRequestWithStringBody, hm, hp]
  · intro hplain
    rw [jsonEncodeString, jsonEscapeList_of_plain payload.data hplain]

/-- C5 amended witness: payload hello becomes body "hello" (with quotes),
which is also its JSON string encoding since hello needs no escaping. -/
theorem makeRequestWithString_quoting_witness :
    (makeRequestWithStringBody "POST" "hello").1 = some "\"hello\"" ∧
    "\"hello\"" = jsonEncodeString "hello" := by
  have h := makeRequestWithString_quoting "POST" "hello" (by decide) (by decide)
  exact ⟨h.1.trans (by decide), (by decide : ("\"hello\"" : String) = "\"" ++ "hello" ++ "\"").trans
    (h.2.2 (by decide))⟩

/-- C6: the raw-XML path sends the payload byte-for-byte as the body and
logs it unwrapped, injects the Content-Type header
"text/xml; charset=UTF-8" only when the caller supplied none, and its
result is that of the shared retry/logging execution pipeline. -/
theorem makeXMLPostRequest_spec (cfg : RetryConfig) (env : CallEnv)
    (xmlPayload : String) (headers : Option (List (String × String))) :
    (makeXMLPostRequest cfg env xmlPayload headers).body = some xmlPayload ∧
    (makeXMLPostRequest cfg env xmlPayload headers).payloadStr = xmlPayload ∧
    (∀ hs, headers = some hs → headerGet hs "Content-Type" = none →
      (makeXMLPostRequest cfg env xmlPayload headers).headers =
        hs ++ [("Content-Type", "text/xml; charset=UTF-8")]) ∧
    (∀ hs, headers = some hs → (headerGet hs "Content-Type").isSome = true →
      (makeXMLPostRequest cfg env xmlPayload headers).headers = hs) ∧
    (makeXMLPostRequest cfg env xmlPayload headers).result = executeRequestWithRetry cfg env := by
  refine ⟨rfl, rfl, ?_, ?_, rfl⟩
  · rintro hs rfl hget
    simp [makeXMLPostRequest, makeXMLPostHeaders, hget]
  · rintro hs rfl hget
    simp [makeXMLPostRequest, makeXMLPostHeaders, hget]

/-- C6 witness: a SOAP call with no caller Content-Type gets the XML
content type appended, and the body is the exact payload. -/
theorem makeXMLPostRequest_spec_witness :
    (makeXMLPostRequest ⟨0, []⟩
        (constEnv false false ⟨none, TransportResult.response 200 (Except.ok "r")⟩)
        "<a/>" (some [("SOAPAction", "act")])).headers =
      [("SOAPAction", "act"), ("Content-Type", "text/xml; charset=UTF-8")] := by
  have h := (makeXMLPostRequest_spec ⟨0, []⟩
      (constEnv false false ⟨none, TransportResult.response 200 (Except.ok "r")⟩)
      "<a/>" (some [("SOAPAction", "act")])).2.2.1 [("SOAPAction", "act")] rfl (by decide)
  simpa using h

/-- C9: calling the raw-XML path with a non-nil headers map lacking a
"Content-Type" key leaves the caller's map extended by exactly that key
(Go maps are reference values, so the caller observes the insertion),
with every other key's binding unchanged. -/
theorem makeXMLPostRequest_mutates_caller_headers (cfg : RetryConfig) (env : CallEnv)
    (xmlPayload : String) (hs : List (String × String))
    (h : headerGet hs "Content-Type" = none) :
    (makeXMLPostRequest cfg env xmlPayload (some hs)).headers =
      hs ++ [("Content-Type", "text/xml; charset=UTF-8")] ∧
    headerGet (makeXMLPostRequest cfg env xmlPayload (some hs)).headers "Content-Type" =
      some "text/xml; charset=UTF-8" ∧
    (∀ k, k ≠ "Content-Type" →
      headerGet (makeXMLPostRequest cfg env xmlPayload (some hs)).headers k =
        headerGet hs k) := by
  have hh : (makeXMLPostRequest cfg env xmlPayload (some hs)).headers =
      hs ++ [("Content-Type", "text/xml; charset=UTF-8")] := by
    simp [makeXMLPostRequest, makeXMLPostHeaders, h]
  refine ⟨hh, ?_, ?_⟩
  · rw [hh]
    exact lookupKey_append_self hs _ _ h
  · intro k hk
    rw [hh]
    exact lookupKey_append_other hs _ _ _ hk

/-- C9 witness: a caller map with only an X-Trace key gains the
Content-Type binding while X-Trace keeps its value. -/
theorem makeXMLPostRequest_mutates_caller_headers_witness :
    headerGet (makeXMLPostRequest ⟨0, []⟩
        (constEnv false false ⟨none, TransportResult.response 200 (Except.ok "r")⟩)
        "<p/>" (some [("X-Trace", "t1")])).headers "X-Trace" = some "t1" :=
  (makeXMLPostRequest_mutates_caller_headers ⟨0, []⟩
      (constEnv false false ⟨none, TransportResult.response 200 (Except.ok "r")⟩)
      "<p/>" [("X-Trace", "t1")] (by decide)).2.2 "X-Trace" (by decide)

/-- C7: for a body-less method with a structured payload, every payload
entry appears (stringified) as a query parameter whatever the map
iteration order, parameters absent from the payload keep their base-URL
binding, and no request body or logged payload string is produced. -/
theorem makeRequest_query_params_spec (method : String)
    (baseQuery : List (String × String)) (payload order : List (String × GoValue))
    (hm : isQueryParamMethod method = true)
    (hperm : payload.Perm order)
    (hnd : (payload.map Prod.fst).Nodup) :
    makeRequestBody method (some order) = (none, "") ∧
    (∀ k v, (k, v) ∈ payload →
      queryGet (makeRequestQuery method baseQuery (some order)) k = some (goSprint v)) ∧
    (∀ k, k ∉ payload.map Prod.fst →
      queryGet (makeRequestQuery method baseQuery (some order)) k = queryGet baseQuery k) := by
  have hq : makeRequestQuery method baseQuery (some order) = buildQuery baseQuery order := by
    simp [makeRequestQuery, hm]
  have hndo : (order.map Prod.fst).Nodup := ((hperm.map Prod.fst).nodup_iff).mp hnd
  refine ⟨?_, ?_, ?_⟩
  · simp [makeRequestBody, hm]
  · intro k v hmem
    rw [hq]
    exact buildQuery_mem order k v baseQuery hndo (hperm.mem_iff.mp hmem)
  · intro k hk
    rw [hq]
    refine buildQuery_not_mem order k baseQuery ?_
    intro hc
    exact hk (((hperm.map Prod.fst).mem_iff).mpr hc)

/-- C7 witness: GET with page/limit parameters places both in the query
and produces no body. -/
theorem makeRequest_query_params_spec_witness :
    queryGet (makeRequestQuery "GET" []
        (some [("page", GoValue.str "1"), ("limit", GoValue.str "10")])) "page" =
      some "1" ∧
    makeRequestBody "GET"
        (some [("page", GoValue.str "1"), ("limit", GoValue.str "10")]) = (none, "") := by
  have h := makeRequest_query_params_spec "GET" []
      [("page", GoValue.str "1"), ("limit", GoValue.str "10")]
      [("page", GoValue.str "1"), ("limit", GoValue.str "10")]
      (by decide) (List.Perm.refl _) (by decide)
  exact ⟨(h.2.1 "page" (GoValue.str "1") (by decide)).trans (by decide), h.1⟩

/-- C3 counterexample: with a retry still available and the shared
deadline observed done right after a successful attempt 0, the call
returns attempt 0's body with a nil error — not the context's error —
even though the context is done. -/
theorem deadline_during_attempt_counterexample :
    executeRequestWithRetry ⟨1, []⟩
        (constEnv false true ⟨none, TransportResult.response 200 (Except.ok "ok")⟩) =
      ⟨"ok", none, 1⟩ ∧
    (constEnv false true
        ⟨none, TransportResult.response 200 (Except.ok "ok")⟩).deadlineAfterAttempt 0 = true ∧
    (executeRequestWithRetry ⟨1, []⟩
        (constEnv false true ⟨none, TransportResult.response 200 (Except.ok "ok")⟩)).error ≠
      some (constEnv false true
        ⟨none, TransportResult.response 200 (Except.ok "ok")⟩).ctxErr :=
  ⟨by decide, rfl, by decide⟩

/-- C3 amended: deadline expiry is terminal — no further attempts occur
regardless of remaining retries and of the Retry Decision.  When the
deadline wins the pre-attempt wait the call returns the context's error
with an empty body; when the context is done at the post-attempt check
the call returns that attempt's body and error (possibly nil on success),
not the context's error. -/
theorem deadline_expiry_is_terminal (cfg : RetryConfig) (env : CallEnv)
    (attempt remaining : Nat) (last : String × Option String) :
    (0 < attempt → env.deadlineBeforeWait attempt = true →
      retryLoopAux cfg env attempt (remaining + 1) last = ⟨"", some env.ctxErr, attempt⟩) ∧
    (env.deadlineAfterAttempt attempt = true →
      (attempt = 0 ∨ env.deadlineBeforeWait attempt = false) →
      retryLoopAux cfg env attempt (remaining + 1) last =
        ⟨(executeRequestOnce (env.attemptEnv attempt)).1,
         (executeRequestOnce (env.attemptEnv attempt)).2, attempt + 1⟩) := by
  constructor
  · intro hpos hdone
    rw [retryLoopAux_succ, if_pos ⟨hpos, hdone⟩]
  · intro hdone hnowait
    have hcond : ¬ (0 < attempt ∧ env.deadlineBeforeWait attempt = true) := by
      rcases hnowait with h0 | hf
      · intro hc
        rw [h0] at hc
        exact absurd hc.1 (by omega)
      · intro hc
        rw [hf] at hc
        exact absurd hc.2 (by simp)
    rw [retryLoopAux_succ, if_neg hcond, if_pos (Or.inr hdone)]

/-- C3 amended witness: at attempt 2 with three loop iterations left and
the deadline winning the pre-attempt wait, the loop stops at once with
the context's error and an empty body. -/
theorem deadline_expiry_is_terminal_witness :
    retryLoopAux ⟨3, [500]⟩
        (constEnv true false ⟨none, TransportResult.response 500 (Except.ok "e")⟩)
        2 3 ("x", some "err") =
      ⟨"", some "context deadline exceeded", 2⟩ :=
  (deadline_expiry_is_terminal ⟨3, [500]⟩
      (constEnv true false ⟨none, TransportResult.response 500 (Except.ok "e")⟩)
      2 2 ("x", some "err")).1 (by omega) rfl

theorem retryLoopAux_all_retryable (cfg : RetryConfig) (env : CallEnv)
    (hwait : ∀ i, env.deadlineBeforeWait i = false)
    (hafter : ∀ i, env.deadlineAfterAttempt i = false)
    (hfail : ∀ i, (executeRequestOnce (env.attemptEnv i)).2 ≠ none)
    (hretry : ∀ i, shouldRetry cfg.RetryOnStatus (executeRequestOnce (env.attemptEnv i)).2 = true) :
    ∀ remaining attempt last,
      retryLoopAux cfg env attempt (remaining + 1) last =
        ⟨(executeRequestOnce (env.attemptEnv (attempt + remaining))).1,
         (executeRequestOnce (env.attemptEnv (attempt + remaining))).2,
         attempt + remaining + 1⟩ := by
  intro remaining
  induction remaining with
  | zero =>
    intro attempt last
    rw [retryLoopAux_succ, if_neg (by simp [hwait attempt]),
        if_neg (by simp [hfail attempt, hafter attempt]), if_pos (hretry attempt),
        retryLoopAux_zero]
    simp
  | succ n ih =>
    intro attempt last
    rw [retryLoopAux_succ, if_neg (by simp [hwait attempt]),
        if_neg (by simp [hfail attempt, hafter attempt]), if_pos (hretry attempt)]
    have h := ih (attempt + 1) (executeRequestOnce (env.attemptEnv attempt))
    have harith : attempt + 1 + n = attempt + (n + 1) := by omega
    rw [harith] at h
    exact h

/-- C1: with a never-expiring deadline and every attempt failing with a
retryable error, a call with maxRetries = N performs exactly N + 1
attempts and returns the last attempt's body and error. -/
theorem retry_exhaustion_returns_last_attempt (cfg : RetryConfig) (env : CallEnv)
    (hwait : ∀ i, env.deadlineBeforeWait i = false)
    (hafter : ∀ i, env.deadlineAfterAttempt i = false)
    (hfail : ∀ i, (executeRequestOnce (env.attemptEnv i)).2 ≠ none)
    (hretry : ∀ i, shouldRetry cfg.RetryOnStatus (executeRequestOnce (env.attemptEnv i)).2 = true) :
    executeRequestWithRetry cfg env =
      ⟨(executeRequestOnce (env.attemptEnv cfg.MaxRetries)).1,
       (executeRequestOnce (env.attemptEnv cfg.MaxRetries)).2,
       cfg.MaxRetries + 1⟩ := by
  have h := retryLoopAux_all_retryable cfg env hwait hafter hfail hretry cfg.MaxRetries 0 ("", none)
  simpa [executeRequestWithRetry] using h

/-- C1 witness: maxRetries = 2 with every attempt answering 500 yields
three attempts and the 500 error with its body. -/
theorem retry_exhaustion_returns_last_attempt_witness :
    executeRequestWithRetry ⟨2, [500]⟩
        (constEnv false false ⟨none, TransportResult.response 500 (Except.ok "server error")⟩) =
      ⟨"server error", some "received non-2xx response code: 500", 3⟩ := by
  have hfail : (executeRequestOnce
      ⟨none, TransportResult.response 500 (Except.ok "server error")⟩).2 ≠ none := by decide
  have hretry : shouldRetry [500] (executeRequestOnce
      ⟨none, TransportResult.response 500 (Except.ok "server error")⟩).2 = true := by decide
  have h := retry_exhaustion_returns_last_attempt ⟨2, [500]⟩
      (constEnv false false ⟨none, TransportResult.response 500 (Except.ok "server error")⟩)
      (fun _ => rfl) (fun _ => rfl) (fun _ => hfail) (fun _ => hretry)
  exact h.trans (by decide)

end RestCall
